import Mathlib

/-!
Shallow embedding of the instaAutomation message-routing pipeline utilities,
translated from the TypeScript source:

* string utilities (`matchesKeyword`, `replaceVariables`), from the shared
  `utils` module;
* the keyword-based sentiment heuristic and AI response dispatch, from
  `ai-service.ts`;
* the retry-with-exponential-backoff combinator and the Instagram API error
  mapping, from `utils` and `instagram-api.ts`;
* the Express `POST /webhook` handler and the BullMQ enqueue helper, from the
  webhook server and `redis.ts`;
* the conversation append helper, from the database helper module;
* the AES-GCM `encrypt` / `decrypt` pair together with a concrete base64
  codec modelling Node's `Buffer` base64 round-trip.

External runtime services (the JS regex engine, the AI providers, the crypto
primitives, UTF-8 codecs) are passed as explicit function parameters; all
control flow around them is translated from the source.
-/

set_option maxHeartbeats 1000000

namespace InstaAutomation

/-- Byte sequences are modelled as lists of naturals; a well-formed byte is
below 256. -/
abbrev Bytes := List Nat

/-- Model of `String.prototype.toLowerCase` restricted to the ASCII range the
source exercises. -/
def jsToLowerCase (s : String) : String :=
  String.mk (s.toList.map Char.toLower)

/-- Model of `String.prototype.includes`: substring containment, checked as
a prefix of some suffix. -/
def jsIncludes (s sub : String) : Bool :=
  s.toList.tails.any (fun t => sub.toList.isPrefixOf t)

/-- The `matchType` union of `matchesKeyword` in the shared utils module. -/
inductive MatchType where
  | contains
  | equals
  | starts_with
  | ends_with
  | regex
deriving DecidableEq, Repr

/-- Translation of `matchesKeyword(message, keyword, matchType, caseSensitive)`.
The JS regex engine is an external runtime component, passed as a parameter
`regexEngine pattern caseSensitive`; it returns `none` when `new RegExp`
throws on an invalid pattern, mirroring the `try/catch` that yields `false`. -/
def matchesKeyword (regexEngine : String → Bool → Option (String → Bool))
    (message keyword : String) (matchType : MatchType)
    (caseSensitive : Bool) : Bool :=
  let msg := if caseSensitive then message else jsToLowerCase message
  let kw := if caseSensitive then keyword else jsToLowerCase keyword
  match matchType with
  | MatchType.contains => jsIncludes msg kw
  | MatchType.equals => msg == kw
  | MatchType.starts_with => msg.startsWith kw
  | MatchType.ends_with => msg.endsWith kw
  | MatchType.regex =>
    match regexEngine keyword caseSensitive with
    | some test => test message
    | none => false

/-- Opening curly brace character. -/
def lbrace : Char := Char.ofNat 123

/-- Closing curly brace character. -/
def rbrace : Char := Char.ofNat 125

/-- Word character class of the JS regex `\w`. -/
def isWordChar (c : Char) : Bool :=
  c.isAlpha || c.isDigit || c = '_'

/-- Replacement value for one matched placeholder, translating
`vars[key] || match` (source name: variables): a missing key, or a key bound to the empty string
(falsy in JS), keeps the matched placeholder text verbatim. -/
def lookupVar (vars : List (String × String)) (w : List Char) : List Char :=
  match vars.lookup (String.mk w) with
  | some v => if v = "" then lbrace :: lbrace :: (w ++ [rbrace, rbrace]) else v.toList
  | none => lbrace :: lbrace :: (w ++ [rbrace, rbrace])

/-- Scanner for `template.replace(/\{\{(\w+)\}\}/g, ...)`: at each position,
a placeholder is two opening braces, one or more word characters, and two
closing braces; since `\w` excludes the brace characters, the greedy word run
followed by the two-brace check is exactly the regex semantics. On a failed
match the scanner advances one character, as the global regex search does. -/
def replaceVarsAux (vars : List (String × String)) : List Char → List Char
  | [] => []
  | [c] => [c]
  | c :: c2 :: rest2 =>
    let w := rest2.takeWhile isWordChar
    let r := rest2.dropWhile isWordChar
    if c = lbrace ∧ c2 = lbrace ∧ w ≠ [] ∧ r.take 2 = [rbrace, rbrace] then
      lookupVar vars w ++ replaceVarsAux vars (r.drop 2)
    else
      c :: replaceVarsAux vars (c2 :: rest2)
termination_by l => l.length
decreasing_by
  all_goals simp_wf
  all_goals
    have hle : (rest2.dropWhile isWordChar).length ≤ rest2.length :=
      (List.dropWhile_suffix isWordChar).sublist.length_le
  all_goals
    have hdrop : ((rest2.dropWhile isWordChar).drop 2).length ≤
        (rest2.dropWhile isWordChar).length := (List.drop_sublist 2 _).length_le
  all_goals omega

/-- Translation of `replaceVariables(template, variables)`. -/
def replaceVariables (template : String) (vars : List (String × String)) : String :=
  String.mk (replaceVarsAux vars template.toList)

/-- The two AI providers supported by `AIService`. -/
inductive AIProvider where
  | openai
  | gemini
deriving DecidableEq, Repr

/-- Positive keyword list of `simpleSentimentAnalysis`. -/
def positiveWords : List String :=
  ["great", "awesome", "excellent", "love", "thanks", "perfect", "amazing", "good"]

/-- Negative keyword list of `simpleSentimentAnalysis`. -/
def negativeWords : List String :=
  ["bad", "terrible", "awful", "hate", "worst", "poor", "disappointed", "angry"]

/-- Translation of `AIService.simpleSentimentAnalysis`: counts positive and
negative keyword hits in the lowercased message and compares the counts. -/
def simpleSentimentAnalysis (message : String) : String :=
  let lowerMessage := jsToLowerCase message
  let positiveCount := (positiveWords.filter (fun word => jsIncludes lowerMessage word)).length
  let negativeCount := (negativeWords.filter (fun word => jsIncludes lowerMessage word)).length
  if positiveCount > negativeCount then "positive"
  else if negativeCount > positiveCount then "negative"
  else "neutral"

/-- Translation of `AIService.generateResponse`. The provider calls are
blocking network I/O; each is passed in as its resolved outcome, an
`Except` mirroring a promise that either resolves with a response of type
`R` or rejects with an error. The source's `try/catch` logs and rethrows,
so errors pass through unchanged; `hasOpenAIClient` / `hasGeminiClient`
reflect whether the constructor initialised the respective client. -/
def generateResponse {R : Type} (provider : AIProvider)
    (hasOpenAIClient hasGeminiClient : Bool)
    (openaiCall geminiCall : Except String R) : Except String R :=
  if provider = AIProvider.openai ∧ hasOpenAIClient then openaiCall
  else if provider = AIProvider.gemini ∧ hasGeminiClient then geminiCall
  else Except.error "Unsupported AI provider"

/-- Translation of `AIService.analyzeSentiment`. For the OpenAI path the
completion content (`choices[0].message.content`, possibly null) arrives as
the call outcome; a rejected call is caught and mapped to `"neutral"`. Every
other provider falls through to `simpleSentimentAnalysis`. The source casts
`content.toLowerCase().trim()` and returns it with `|| 'neutral'`, so an
empty or null content becomes `"neutral"`. -/
def analyzeSentiment (provider : AIProvider) (hasOpenAIClient : Bool)
    (openaiCall : Except String (Option String)) (message : String) : String :=
  if provider = AIProvider.openai ∧ hasOpenAIClient then
    match openaiCall with
    | Except.ok content =>
      match content with
      | some c =>
        let sentiment := (jsToLowerCase c).trim
        if sentiment = "" then "neutral" else sentiment
      | none => "neutral"
    | Except.error _ => "neutral"
  else
    simpleSentimentAnalysis message

/-- Error type raised by `InstagramAPIClient.handleAPIError`: either a
`RateLimitError` carrying the retry-after duration in seconds, or an
`InstagramAPIError` carrying a message. -/
inductive IGAPIError where
  | rateLimit (message : String) (retryAfter : Nat)
  | api (message : String)
deriving DecidableEq, Repr

/-- Translation of `InstagramAPIClient.handleAPIError`. `hasResponse` is
whether `error.response` is present; `status` is the HTTP status;
`errCode` / `errMessage` come from `response.data.error`; the
`retry-after` header is modelled as already parsed (the source applies
`parseInt` with a `'60'` fallback). -/
def handleAPIError (hasResponse : Bool) (status : Nat) (errCode : Option Int)
    (errMessage : Option String) (retryAfterHeader : Option Nat)
    (networkMessage : String) : IGAPIError :=
  if hasResponse then
    if status = 429 ∨ errCode = some 4 then
      let retryAfter := retryAfterHeader.getD 60
      IGAPIError.rateLimit
        ("Instagram API rate limit exceeded. Retry after " ++ toString retryAfter ++ "s")
        retryAfter
    else
      IGAPIError.api (errMessage.getD "Instagram API error")
  else
    IGAPIError.api networkMessage

/-- Observable trace of one `retryWithBackoff` run: the sleep durations (in
milliseconds, in order), the number of times the wrapped function was
invoked, and the final outcome. `outcome = none` only when `maxRetries = 0`,
where the source would throw an undefined `lastError`. -/
structure RetryTrace (E T : Type) where
  delays : List Nat
  attempts : Nat
  outcome : Option (Except E T)

/-- Loop body of `retryWithBackoff`: attempt index `i`, with `remaining`
iterations left (`remaining = maxRetries - i`). A failure on any but the
last iteration sleeps `baseDelay * 2 ^ i` before the next attempt; the last
failure is rethrown. -/
def retryAux {E T : Type} (fn : Nat → Except E T) (baseDelay : Nat) :
    Nat → Nat → RetryTrace E T
  | _, 0 => ⟨[], 0, none⟩
  | i, remaining + 1 =>
    match fn i with
    | Except.ok v => ⟨[], 1, some (Except.ok v)⟩
    | Except.error e =>
      match remaining with
      | 0 => ⟨[], 1, some (Except.error e)⟩
      | r + 1 =>
        let rest := retryAux fn baseDelay (i + 1) (r + 1)
        ⟨baseDelay * 2 ^ i :: rest.delays, 1 + rest.attempts, rest.outcome⟩

/-- Translation of `retryWithBackoff(fn, maxRetries, baseDelay)`. The wrapped
async function is modelled by the outcome of its `i`-th invocation. -/
def retryWithBackoff {E T : Type} (fn : Nat → Except E T)
    (maxRetries : Nat := 3) (baseDelay : Nat := 1000) : RetryTrace E T :=
  retryAux fn baseDelay 0 maxRetries

/-- Return shape of `InstagramAPIClient.sendMessage`. -/
structure SendMessageResponse where
  message_id : String
  recipient_id : String
deriving DecidableEq, Repr

/-- Translation of `InstagramAPIClient.sendMessage`: wraps the platform POST
(whose `i`-th invocation outcome, the platform-assigned `message_id`, is
`attempt i`) in `retryWithBackoff` with `maxRetries = 3` and
`baseDelay = 1000`, and pairs the resulting id with the recipient. -/
def sendMessage (recipientId : String)
    (attempt : Nat → Except IGAPIError String) : RetryTrace IGAPIError SendMessageResponse :=
  let t := retryWithBackoff attempt 3 1000
  ⟨t.delays, t.attempts,
    t.outcome.map (fun r => r.map (fun mid => ⟨mid, recipientId⟩))⟩

/-- Job payload of the `webhook-events` queue (`WebhookJobData` in
`redis.ts`); the raw payload is carried as its JSON text. -/
structure WebhookJobData where
  eventType : String
  payload : String
  receivedAt : String
  igAccountId : Option String
deriving DecidableEq, Repr

/-- Translation of `queueWebhookEvent`: `webhookQueue.add` with no explicit
job id, so every call appends a fresh job. -/
def queueWebhookEvent (queue : List WebhookJobData) (data : WebhookJobData) :
    List WebhookJobData :=
  queue ++ [data]

/-- Observable server-side state around the webhook endpoint: the queued
webhook jobs, the recorded activity logs, and the outbound sends performed. -/
structure ServerState where
  webhookQueue : List WebhookJobData
  activityLogs : List String
  outboundSends : List String
deriving DecidableEq, Repr

/-- Translation of the Express `app.post("/webhook", ...)` handler: it logs
the body to the console and replies `res.sendStatus(200)`; the queue push is
an unresolved TODO, no signature check is performed, and no state is
touched. The request body and the `X-Hub-Signature-256` header (absent or
present) are the handler's inputs. -/
def postWebhook (st : ServerState) (body : String) (signature : Option String) :
    Nat × ServerState :=
  (200, st)

/-- One entry of a Conversation's `messages` JSON array. -/
structure ConvMessage where
  role : String
  content : String
  timestamp : Nat
  messageId : Option String
deriving DecidableEq, Repr

/-- Conversation row fields touched by `addMessageToConversation`. -/
structure Conversation where
  messages : List ConvMessage
  lastMessageAt : Nat
deriving DecidableEq, Repr

/-- Translation of `addMessageToConversation`: looks the conversation up by
id (the lookup result is the `Option`), throws when absent, pushes the new
message at the end of the stored array, and sets `lastMessageAt` to the new
message's timestamp. -/
def addMessageToConversation (conv : Option Conversation) (message : ConvMessage) :
    Except String Conversation :=
  match conv with
  | none => Except.error "Conversation not found"
  | some c =>
    Except.ok { c with
      messages := c.messages ++ [message],
      lastMessageAt := message.timestamp }

/-- Decidable check that a message list is ascending in timestamp. -/
def timestampOrdered : List ConvMessage → Bool
  | [] => true
  | [_] => true
  | a :: b :: rest => a.timestamp ≤ b.timestamp && timestampOrdered (b :: rest)

/-- Standard base64 alphabet used by Node's `Buffer.toString('base64')`. -/
def base64Chars : List Char :=
  "ABCDEFGHIJKLMNOPQRSTUVWXYZabcdefghijklmnopqrstuvwxyz0123456789+/".toList

/-- Character for one 6-bit group. -/
def encodeB64Char (n : Nat) : Char :=
  base64Chars.getD n 'A'

/-- Inverse of `encodeB64Char`; `none` for characters outside the alphabet. -/
def decodeB64Char (c : Char) : Option Nat :=
  let i := base64Chars.indexOf c
  if i < 64 then some i else none

/-- Base64 encoding of a byte list, three bytes per four characters, with
`=` padding on a trailing group of one or two bytes. -/
def encodeB64Groups : List Nat → List Char
  | [] => []
  | [a] =>
    [encodeB64Char (a / 4), encodeB64Char (a % 4 * 16), '=', '=']
  | [a, b] =>
    [encodeB64Char (a / 4), encodeB64Char (a % 4 * 16 + b / 16),
     encodeB64Char (b % 16 * 4), '=']
  | a :: b :: c :: rest =>
    encodeB64Char (a / 4) :: encodeB64Char (a % 4 * 16 + b / 16) ::
    encodeB64Char (b % 16 * 4 + c / 64) :: encodeB64Char (c % 64) ::
    encodeB64Groups rest

/-- Base64 decoding, four characters per group, honouring `=` padding on the
final group; `none` on malformed input. -/
def decodeB64Groups : List Char → Option (List Nat)
  | [] => some []
  | c1 :: c2 :: c3 :: c4 :: rest =>
    if c3 = '=' ∧ c4 = '=' ∧ rest = [] then
      match decodeB64Char c1, decodeB64Char c2 with
      | some n1, some n2 => some [n1 * 4 + n2 / 16]
      | _, _ => none
    else if c4 = '=' ∧ rest = [] then
      match decodeB64Char c1, decodeB64Char c2, decodeB64Char c3 with
      | some n1, some n2, some n3 =>
        some [n1 * 4 + n2 / 16, n2 % 16 * 16 + n3 / 4]
      | _, _, _ => none
    else
      match decodeB64Char c1, decodeB64Char c2, decodeB64Char c3,
            decodeB64Char c4, decodeB64Groups rest with
      | some n1, some n2, some n3, some n4, some tail =>
        some ((n1 * 4 + n2 / 16) :: (n2 % 16 * 16 + n3 / 4) :: (n3 % 4 * 64 + n4) :: tail)
      | _, _, _, _, _ => none
  | _ => none

/-- Model of `Buffer.prototype.toString('base64')`. -/
def toBase64 (bs : Bytes) : String :=
  String.mk (encodeB64Groups bs)

/-- Model of `Buffer.from(data, 'base64')` on well-formed base64 text. -/
def fromBase64 (s : String) : Option Bytes :=
  decodeB64Groups s.toList

/-- Translation of `encrypt(text, secretKey)`. The external crypto
primitives are parameters: `pbkdf2` is the deterministic key derivation
(`pbkdf2Sync(secretKey, salt, 100000, 32, 'sha512')`), `encryptPrim key iv
plain` is the AES-256-GCM cipher returning the ciphertext and its 16-byte
auth tag, and `utf8Encode` is the UTF-8 byte encoding of the plaintext. The
random `iv` (16 bytes) and `salt` (64 bytes) produced by
`crypto.randomBytes` are inputs. The payload is the base64 text of
`salt ++ iv ++ tag ++ ciphertext`, as in the source's `Buffer.concat`. -/
def encrypt (encryptPrim : Bytes → Bytes → Bytes → Bytes × Bytes)
    (pbkdf2 : String → Bytes → Bytes) (utf8Encode : String → Bytes)
    (text secretKey : String) (iv salt : Bytes) : String :=
  let key := pbkdf2 secretKey salt
  let res := encryptPrim key iv (utf8Encode text)
  toBase64 (salt ++ iv ++ res.2 ++ res.1)

/-- Translation of `decrypt(encryptedData, secretKey)`: decodes the base64
payload, slices it at the fixed positions `SALT_LENGTH = 64`,
`TAG_POSITION = 80`, `ENCRYPTED_POSITION = 96`, re-derives the key, and
runs the AES-256-GCM decipher (`decryptPrim key iv tag ciphertext`),
which returns `none` when the auth tag check in `decipher.final` throws;
`utf8Decode` is the UTF-8 decoding of the recovered plaintext bytes. -/
def decrypt (decryptPrim : Bytes → Bytes → Bytes → Bytes → Option Bytes)
    (pbkdf2 : String → Bytes → Bytes) (utf8Decode : Bytes → String)
    (encryptedData secretKey : String) : Option String :=
  match fromBase64 encryptedData with
  | none => none
  | some buffer =>
    let salt := buffer.take 64
    let iv := (buffer.drop 64).take 16
    let tag := (buffer.drop 80).take 16
    let encrypted := buffer.drop 96
    let key := pbkdf2 secretKey salt
    match decryptPrim key iv tag encrypted with
    | none => none
    | some plain => some (utf8Decode plain)

/-- Regex engine that rejects every pattern, modelling `new RegExp` throwing
on a syntactically invalid pattern. -/
def noRegexEngine : String → Bool → Option (String → Bool) :=
  fun _ _ => none

/-- Send attempt that fails with transient API errors on the first two
invocations and succeeds on the third. -/
def attemptFailTwice : Nat → Except IGAPIError String :=
  fun i => if i < 2 then Except.error (IGAPIError.api (toString i)) else Except.ok "mid_3"

/-- Send attempt that fails on every invocation. -/
def attemptAllFail : Nat → Except IGAPIError String :=
  fun i => Except.error (IGAPIError.api (toString i))

/-- Send attempt whose first invocation fails with the `RateLimitError`
produced by `handleAPIError` for a 429 response carrying
`retry-after: 30`, and whose later invocations succeed. -/
def rateLimitThenOk : Nat → Except IGAPIError Unit :=
  fun i => if i = 0 then Except.error (handleAPIError true 429 none none (some 30) "") else Except.ok ()

/-- Concrete stand-in cipher for round-trip witnesses: the ciphertext is the
plaintext and the tag is 16 zero bytes. -/
def witnessEncryptPrim : Bytes → Bytes → Bytes → Bytes × Bytes :=
  fun _ _ plain => (plain, List.replicate 16 0)

/-- Matching stand-in decipher: returns the ciphertext unchanged. -/
def witnessDecryptPrim : Bytes → Bytes → Bytes → Bytes → Option Bytes :=
  fun _ _ _ ct => some ct

/-- Stand-in key derivation returning a fixed 32-byte key. -/
def witnessPbkdf2 : String → Bytes → Bytes :=
  fun _ _ => List.replicate 32 0

/-- Codepoint-wise byte encoding for ASCII witnesses. -/
def witnessUtf8Encode : String → Bytes :=
  fun s => s.toList.map Char.toNat

/-- Inverse of `witnessUtf8Encode` on ASCII text. -/
def witnessUtf8Decode : Bytes → String :=
  fun bs => String.mk (bs.map Char.ofNat)

/-- Empty conversation used in the ordering counterexample. -/
def convEmpty : Conversation := ⟨[], 0⟩

/-- Inbound message with the later timestamp, delivered first. -/
def msgLater : ConvMessage := ⟨"user", "second message by timestamp", 2, none⟩

/-- Inbound message with the earlier timestamp, delivered second. -/
def msgEarlier : ConvMessage := ⟨"user", "first message by timestamp", 1, none⟩

/-- Sample webhook job payload reused by the idempotency theorems. -/
def sampleJob : WebhookJobData :=
  ⟨"messages", "evt_12345 payload", "2026-01-01T00:00:00Z", some "acct_1"⟩

/-!
Theorems. Each claim-level theorem states the property in its doc comment;
helper lemmas precede the theorems that use them.
-/

/-- Helper: with an empty variables map, the placeholder scanner emits its
input unchanged, because every matched placeholder is replaced by its own
text. -/
theorem replaceVarsAux_nil (l : List Char) : replaceVarsAux [] l = l := by
  induction l using replaceVarsAux.induct [] with
  | case1 => rw [replaceVarsAux]
  | case2 c => rw [replaceVarsAux]
  | case3 c c2 rest2 w r hcond ih =>
    rw [replaceVarsAux]
    simp only [if_pos hcond]
    rw [ih]
    obtain ⟨hc, hc2, hw, htake⟩ := hcond
    subst hc hc2
    have hsplit := List.takeWhile_append_dropWhile (p := isWordChar) (l := rest2)
    have htd := List.take_append_drop 2 (rest2.dropWhile isWordChar)
    rw [htake] at htd
    simp only [lookupVar, List.lookup_nil]
    conv_rhs => rw [← hsplit, ← htd]
    simp
  | case4 c c2 rest2 w r hcond ih =>
    rw [replaceVarsAux]
    simp only [if_neg hcond, ih]

/-- C7: `matchesKeyword("I love your Pricing!", "pricing", "contains",
caseSensitive=false)` returns `true`, and the identical call with
`caseSensitive=true` returns `false`, for every regex engine (the
`contains` branch never consults it). -/
theorem matchesKeyword_contains_case_sensitivity
    (regexEngine : String → Bool → Option (String → Bool)) :
    matchesKeyword regexEngine "I love your Pricing!" "pricing" MatchType.contains false = true ∧
    matchesKeyword regexEngine "I love your Pricing!" "pricing" MatchType.contains true = false := by
  refine ⟨?_, ?_⟩ <;> (simp only [matchesKeyword]; decide)

/-- C8: the `regex` branch of `matchesKeyword` is total and returns `false`
whenever the engine rejects the pattern (the `try/catch` around
`new RegExp`): for every message, pattern and case flag, a pattern on which
the engine throws yields `false` rather than an exception. Totality over
all inputs holds by construction of the embedding, which is a Lean
function into `Bool`. -/
theorem matchesKeyword_regex_invalid_pattern
    (regexEngine : String → Bool → Option (String → Bool))
    (message pattern : String) (caseSensitive : Bool)
    (hinvalid : regexEngine pattern caseSensitive = none) :
    matchesKeyword regexEngine message pattern MatchType.regex caseSensitive = false := by
  unfold matchesKeyword
  rw [hinvalid]

/-- Witness for C8 at a concrete invalid pattern: the always-throwing engine
on the unclosed character class `"["`. -/
theorem matchesKeyword_regex_invalid_pattern_witness :
    matchesKeyword noRegexEngine "any message" "[" MatchType.regex false = false :=
  matchesKeyword_regex_invalid_pattern noRegexEngine "any message" "[" false rfl

/-- Helper: `takeWhile` and `dropWhile` pass over a block of characters that
all satisfy the predicate. -/
theorem takeWhile_dropWhile_append_of_all {p : Char → Bool} (l1 l2 : List Char)
    (h : ∀ c ∈ l1, p c = true) :
    (l1 ++ l2).takeWhile p = l1 ++ l2.takeWhile p ∧
    (l1 ++ l2).dropWhile p = l2.dropWhile p := by
  induction l1 with
  | nil => simp
  | cons c l1 ih =>
    have hc : p c = true := h c (by simp)
    have h2 : ∀ x ∈ l1, p x = true := fun x hx => h x (by simp [hx])
    simp [List.takeWhile_cons, List.dropWhile_cons, hc, ih h2]

/-- Helper: the scanner emits a character that is not an opening brace
unchanged and moves to the next position. -/
theorem replaceVarsAux_cons_ne (vars : List (String × String))
    (c c2 : Char) (rest2 : List Char) (hc : c ≠ lbrace) :
    replaceVarsAux vars (c :: c2 :: rest2) = c :: replaceVarsAux vars (c2 :: rest2) := by
  rw [replaceVarsAux]
  split
  · next hcond => exact absurd hcond.1 hc
  · rfl

/-- Helper: a block of text without an opening brace passes through the
scanner unchanged, for every variables map. -/
theorem replaceVarsAux_pass_through (vars : List (String × String))
    (pre rest : List Char) (hpre : lbrace ∉ pre) :
    replaceVarsAux vars (pre ++ rest) = pre ++ replaceVarsAux vars rest := by
  induction pre with
  | nil => rfl
  | cons c pre ih =>
    have hc : c ≠ lbrace := fun h => hpre (h ▸ List.mem_cons_self c pre)
    have hpre2 : lbrace ∉ pre := fun h => hpre (List.mem_cons_of_mem _ h)
    rw [List.cons_append]
    cases hpr : pre ++ rest with
    | nil =>
      obtain ⟨hp, hr⟩ := List.append_eq_nil.mp hpr
      subst hp hr
      simp [replaceVarsAux]
    | cons c2 rest2 =>
      rw [replaceVarsAux_cons_ne vars c c2 rest2 hc, ← hpr, ih hpre2]
      simp

/-- Helper: a placeholder whose key is bound to a non-empty value is
replaced by that value, and scanning continues after it, for every
variables map and every remaining template. -/
theorem replaceVarsAux_resolved (vars : List (String × String))
    (w post : List Char) (v : String)
    (hw : ∀ c ∈ w, isWordChar c = true) (hne : w ≠ [])
    (hlook : vars.lookup (String.mk w) = some v) (hv : v ≠ "") :
    replaceVarsAux vars (lbrace :: lbrace :: (w ++ rbrace :: rbrace :: post)) =
      v.toList ++ replaceVarsAux vars post := by
  obtain ⟨htw, hdw⟩ :=
    takeWhile_dropWhile_append_of_all w (rbrace :: rbrace :: post) hw
  have hrb : isWordChar rbrace = false := by decide
  have htw2 : (w ++ rbrace :: rbrace :: post).takeWhile isWordChar = w := by
    rw [htw, List.takeWhile_cons, hrb]
    simp
  have hdw2 : (w ++ rbrace :: rbrace :: post).dropWhile isWordChar =
      rbrace :: rbrace :: post := by
    rw [hdw, List.dropWhile_cons, hrb]
    simp
  rw [replaceVarsAux]
  split
  · next hcond =>
    rw [htw2, hdw2]
    simp [lookupVar, hlook, hv]
  · next hcond =>
    exact absurd ⟨rfl, rfl, by rw [htw2]; exact hne, by rw [hdw2]; simp⟩ hcond

/-- Helper: a placeholder whose key is not bound in the variables map is
left verbatim, and scanning continues after it, for every variables map
and every remaining template. -/
theorem replaceVarsAux_unresolved (vars : List (String × String))
    (w post : List Char)
    (hw : ∀ c ∈ w, isWordChar c = true) (hne : w ≠ [])
    (hlook : vars.lookup (String.mk w) = none) :
    replaceVarsAux vars (lbrace :: lbrace :: (w ++ rbrace :: rbrace :: post)) =
      lbrace :: lbrace :: (w ++ [rbrace, rbrace]) ++ replaceVarsAux vars post := by
  obtain ⟨htw, hdw⟩ :=
    takeWhile_dropWhile_append_of_all w (rbrace :: rbrace :: post) hw
  have hrb : isWordChar rbrace = false := by decide
  have htw2 : (w ++ rbrace :: rbrace :: post).takeWhile isWordChar = w := by
    rw [htw, List.takeWhile_cons, hrb]
    simp
  have hdw2 : (w ++ rbrace :: rbrace :: post).dropWhile isWordChar =
      rbrace :: rbrace :: post := by
    rw [hdw, List.dropWhile_cons, hrb]
    simp
  rw [replaceVarsAux]
  split
  · next hcond =>
    rw [htw2, hdw2]
    simp [lookupVar, hlook]
  · next hcond =>
    exact absurd ⟨rfl, rfl, by rw [htw2]; exact hne, by rw [hdw2]; simp⟩ hcond

/-- C9: `replaceVariables "Hi {{name}}" {name: Ana}` renders `"Hi Ana"`, and
for every template and every variables map each `{{key}}` placeholder
whose key is not supplied is left verbatim without the call failing. The
general clauses characterise the scanner for arbitrary maps: text without
an opening brace passes through unchanged, a placeholder bound to a
non-empty value is substituted, and an unbound placeholder is emitted
verbatim, scanning continuing after it in each case — so unresolved
placeholders survive alongside substitutions, as in
`"Hi {{name}} {{x}}"` with only `name` supplied rendering
`"Hi Ana {{x}}"`; with an empty map every template is unchanged, in
particular `"Hi {{name}}"`. -/
theorem replaceVariables_round_trip :
    replaceVariables "Hi \x7b\x7bname\x7d\x7d" [("name", "Ana")] = "Hi Ana" ∧
    replaceVariables "Hi \x7b\x7bname\x7d\x7d" [] = "Hi \x7b\x7bname\x7d\x7d" ∧
    replaceVariables "Hi \x7b\x7bname\x7d\x7d \x7b\x7bx\x7d\x7d" [("name", "Ana")] =
      "Hi Ana \x7b\x7bx\x7d\x7d" ∧
    (∀ template : String, replaceVariables template [] = template) ∧
    (∀ (vars : List (String × String)) (pre rest : List Char), lbrace ∉ pre →
      replaceVarsAux vars (pre ++ rest) = pre ++ replaceVarsAux vars rest) ∧
    (∀ (vars : List (String × String)) (w post : List Char) (v : String),
      (∀ c ∈ w, isWordChar c = true) → w ≠ [] →
      vars.lookup (String.mk w) = some v → v ≠ "" →
      replaceVarsAux vars (lbrace :: lbrace :: (w ++ rbrace :: rbrace :: post)) =
        v.toList ++ replaceVarsAux vars post) ∧
    (∀ (vars : List (String × String)) (w post : List Char),
      (∀ c ∈ w, isWordChar c = true) → w ≠ [] →
      vars.lookup (String.mk w) = none →
      replaceVarsAux vars (lbrace :: lbrace :: (w ++ rbrace :: rbrace :: post)) =
        lbrace :: lbrace :: (w ++ [rbrace, rbrace]) ++ replaceVarsAux vars post) := by
  refine ⟨?_, ?_, ?_, ?_, replaceVarsAux_pass_through,
    replaceVarsAux_resolved, replaceVarsAux_unresolved⟩
  · simp +decide [replaceVariables, replaceVarsAux, lookupVar]
  · rw [replaceVariables, replaceVarsAux_nil]
    rfl
  · simp +decide [replaceVariables, replaceVarsAux, lookupVar]
  · intro template
    rw [replaceVariables, replaceVarsAux_nil]
    rfl

/-- Witness for C9's general clauses at concrete inputs, all under the
non-empty map `{name: Ana}`: plain text passes through unchanged before an
unresolved placeholder, the bound `{{name}}` placeholder is substituted,
and the unbound `{{x}}` placeholder is left verbatim. -/
theorem replaceVariables_round_trip_witness :
    replaceVarsAux [("name", "Ana")] ("Hi ".toList ++ "\x7b\x7bx\x7d\x7d".toList) =
      "Hi ".toList ++ replaceVarsAux [("name", "Ana")] "\x7b\x7bx\x7d\x7d".toList ∧
    replaceVarsAux [("name", "Ana")]
        (lbrace :: lbrace :: ("name".toList ++ rbrace :: rbrace :: " \x7b\x7bx\x7d\x7d".toList)) =
      "Ana".toList ++ replaceVarsAux [("name", "Ana")] " \x7b\x7bx\x7d\x7d".toList ∧
    replaceVarsAux [("name", "Ana")]
        (lbrace :: lbrace :: ("x".toList ++ rbrace :: rbrace :: [])) =
      lbrace :: lbrace :: ("x".toList ++ [rbrace, rbrace]) ++
        replaceVarsAux [("name", "Ana")] [] :=
  ⟨replaceVariables_round_trip.2.2.2.2.1 [("name", "Ana")] "Hi ".toList
      "\x7b\x7bx\x7d\x7d".toList (by decide),
    replaceVariables_round_trip.2.2.2.2.2.1 [("name", "Ana")] "name".toList
      " \x7b\x7bx\x7d\x7d".toList "Ana" (by decide) (by decide) rfl (by decide),
    replaceVariables_round_trip.2.2.2.2.2.2 [("name", "Ana")] "x".toList
      [] (by decide) (by decide) rfl⟩

/-- C2 (behaviour at the failing input): the `POST /webhook` handler
responds 200 for every request — including one with the
`X-Hub-Signature-256` header missing — and leaves the server state
untouched: no signature is checked, no queue entry is created, and no
response is ever 403. This contradicts the claim that the handler responds
200 only when the signature validates and the event is enqueued, and 403
otherwise. -/
theorem postWebhook_always_200_no_enqueue
    (st : ServerState) (body : String) (signature : Option String) :
    postWebhook st body signature = (200, st) ∧
    postWebhook st body none = (200, st) :=
  ⟨rfl, rfl⟩

/-- C1 (behaviour at the failing input): delivering the same event to
`POST /webhook` twice leaves the state unchanged both times — zero outbound
sends, zero ActivityLog records and zero queue entries result, not exactly
one — and the enqueue helper `queueWebhookEvent` appends a fresh job on
every call, so two enqueues of the same `eventId` payload yield two queue
entries rather than one. -/
theorem webhook_redelivery_not_idempotent :
    (postWebhook (postWebhook ⟨[], [], []⟩ "evt_12345 payload" none).2
        "evt_12345 payload" none).2 = ⟨[], [], []⟩ ∧
    queueWebhookEvent (queueWebhookEvent [] sampleJob) sampleJob =
      [sampleJob, sampleJob] :=
  ⟨rfl, rfl⟩

/-- C3 counterexample: two messages for the same conversation appended via
`addMessageToConversation` out of timestamp order (first the message with
timestamp 2, then the one with timestamp 1) produce the messages list
`[msgLater, msgEarlier]`, which is in arrival order and not in timestamp
order — refuting the claim that the stored list reflects true timestamp
order after every append. -/
theorem addMessage_arrival_order_counterexample :
    (addMessageToConversation (some convEmpty) msgLater).bind
        (fun c1 => addMessageToConversation (some c1) msgEarlier) =
      Except.ok ⟨[msgLater, msgEarlier], 1⟩ ∧
    msgEarlier.timestamp < msgLater.timestamp ∧
    timestampOrdered [msgLater, msgEarlier] = false := by
  refine ⟨rfl, by decide, by decide⟩

/-- C3 amended: `addMessageToConversation` appends at the end of the stored
array, so after two appends for the same conversation the messages list is
in arrival order — the second-appended message always follows the first,
whatever their timestamps — and `lastMessageAt` is the timestamp of the
last appended message. -/
theorem addMessage_appends_in_arrival_order
    (c : Conversation) (m1 m2 : ConvMessage) :
    (addMessageToConversation (some c) m1).bind
        (fun c1 => addMessageToConversation (some c1) m2) =
      Except.ok ⟨c.messages ++ [m1, m2], m2.timestamp⟩ := by
  simp [addMessageToConversation, Except.bind]

/-- C4 (behaviour at the failing input): when the first send attempt fails
with the `RateLimitError` that `handleAPIError` builds from a 429 response
carrying `retry-after: 30`, the sender (`retryWithBackoff` with
`baseDelay = 1000` ms as used by `sendMessage`) sleeps exactly 1000 ms
before the second attempt — 1000 ms < 30 s = 30000 ms — so the carried
`retryAfter` duration is never honoured as a minimum wait. -/
theorem rateLimit_retryAfter_not_honoured :
    handleAPIError true 429 none none (some 30) "" =
      IGAPIError.rateLimit "Instagram API rate limit exceeded. Retry after 30s" 30 ∧
    (retryWithBackoff rateLimitThenOk 3 1000).delays = [1000] ∧
    1000 < 30 * 1000 := by
  refine ⟨by decide, by decide, by decide⟩

/-- C5: `sendMessage` wraps the platform call in `retryWithBackoff` with
`maxRetries = 3`, `baseDelay = 1000`. If the call fails on the first two
attempts and succeeds on the third, exactly 3 attempts are made, the waits
before the retries are 1000 ms and 2000 ms (doubling from the base delay),
and the third attempt's single `message_id` is returned; if all three
attempts fail, the last error is raised after the same two waits. -/
theorem sendMessage_retry_backoff :
    (∀ (attempt : Nat → Except IGAPIError String) (recipientId : String)
        (e0 e1 : IGAPIError) (mid : String),
      attempt 0 = Except.error e0 → attempt 1 = Except.error e1 →
      attempt 2 = Except.ok mid →
      sendMessage recipientId attempt =
        ⟨[1000, 2000], 3, some (Except.ok ⟨mid, recipientId⟩)⟩) ∧
    (∀ (attempt : Nat → Except IGAPIError String) (recipientId : String)
        (e0 e1 e2 : IGAPIError),
      attempt 0 = Except.error e0 → attempt 1 = Except.error e1 →
      attempt 2 = Except.error e2 →
      sendMessage recipientId attempt =
        ⟨[1000, 2000], 3, some (Except.error e2)⟩) := by
  constructor
  · intro attempt recipientId e0 e1 mid h0 h1 h2
    have key : retryAux attempt 1000 0 3 = ⟨[1000, 2000], 3, some (Except.ok mid)⟩ := by
      simp [retryAux, h0, h1, h2]
    simp [sendMessage, retryWithBackoff, key, Except.map]
  · intro attempt recipientId e0 e1 e2 h0 h1 h2
    have key : retryAux attempt 1000 0 3 = ⟨[1000, 2000], 3, some (Except.error e2)⟩ := by
      simp [retryAux, h0, h1, h2]
    simp [sendMessage, retryWithBackoff, key, Except.map]

/-- Witness for C5 at concrete attempt outcomes: two transient API failures
then a success returns the third attempt's message id after waits of
1000 ms and 2000 ms; three failures raise the last error. -/
theorem sendMessage_retry_backoff_witness :
    sendMessage "user_1" attemptFailTwice =
      ⟨[1000, 2000], 3, some (Except.ok ⟨"mid_3", "user_1"⟩)⟩ ∧
    sendMessage "user_1" attemptAllFail =
      ⟨[1000, 2000], 3, some (Except.error (IGAPIError.api "2"))⟩ :=
  ⟨sendMessage_retry_backoff.1 attemptFailTwice "user_1"
      (IGAPIError.api "0") (IGAPIError.api "1") "mid_3" rfl rfl rfl,
    sendMessage_retry_backoff.2 attemptAllFail "user_1"
      (IGAPIError.api "0") (IGAPIError.api "1") (IGAPIError.api "2") rfl rfl rfl⟩

/-- C6: `generateResponse` propagates provider failures as errors — whenever
the selected provider call rejects with `e`, the whole call rejects with
the same `e` — and every successful reply text is exactly the selected
provider call's own result, so nothing (in particular not the keyword
heuristic) is ever substituted for the primary reply; the
`simpleSentimentAnalysis` heuristic is reached only through the
non-critical `analyzeSentiment`, which uses it exactly on the non-OpenAI
paths. -/
theorem generateResponse_propagates_provider_errors :
    (∀ (R : Type) (hasGemini : Bool) (openaiCall geminiCall : Except String R)
        (e : String), openaiCall = Except.error e →
      generateResponse AIProvider.openai true hasGemini openaiCall geminiCall =
        Except.error e) ∧
    (∀ (R : Type) (hasOpenAI : Bool) (openaiCall geminiCall : Except String R)
        (e : String), geminiCall = Except.error e →
      generateResponse AIProvider.gemini hasOpenAI true openaiCall geminiCall =
        Except.error e) ∧
    (∀ (R : Type) (provider : AIProvider) (hasOpenAI hasGemini : Bool)
        (openaiCall geminiCall : Except String R) (r : R),
      generateResponse provider hasOpenAI hasGemini openaiCall geminiCall =
        Except.ok r →
      openaiCall = Except.ok r ∨ geminiCall = Except.ok r) ∧
    (∀ (provider : AIProvider) (hasOpenAI : Bool)
        (openaiCall : Except String (Option String)) (message : String),
      ¬(provider = AIProvider.openai ∧ hasOpenAI = true) →
      analyzeSentiment provider hasOpenAI openaiCall message =
        simpleSentimentAnalysis message) := by
  refine ⟨?_, ?_, ?_, ?_⟩
  · intro R hasGemini oc gc e he
    simp [generateResponse, he]
  · intro R hasOpenAI oc gc e he
    cases hasOpenAI <;> simp [generateResponse, he]
  · intro R provider hasOpenAI hasGemini oc gc r hok
    unfold generateResponse at hok
    split at hok
    · exact Or.inl hok
    · split at hok
      · exact Or.inr hok
      · exact absurd hok (by simp)
  · intro provider hasOpenAI oc message hnot
    unfold analyzeSentiment
    rw [if_neg]
    simpa using hnot

/-- Witness for C6 at concrete inputs: a rejected OpenAI call rejects the
whole generation with the same error; a rejected Gemini call likewise; a
successful generation's text comes from a provider call; and
`analyzeSentiment` for the Gemini provider is the keyword heuristic. -/
theorem generateResponse_propagates_provider_errors_witness :
    generateResponse AIProvider.openai true true
        (Except.error "provider down" : Except String String)
        (Except.ok "unused") = Except.error "provider down" ∧
    generateResponse AIProvider.gemini true true
        (Except.ok "unused" : Except String String)
        (Except.error "quota exceeded") = Except.error "quota exceeded" ∧
    ((Except.ok "hello" : Except String String) = Except.ok "hello" ∨
      (Except.ok "unused" : Except String String) = Except.ok "hello") ∧
    analyzeSentiment AIProvider.gemini false (Except.ok none) "thanks, great!" =
      simpleSentimentAnalysis "thanks, great!" :=
  ⟨generateResponse_propagates_provider_errors.1 String true
      (Except.error "provider down") (Except.ok "unused") "provider down" rfl,
    generateResponse_propagates_provider_errors.2.1 String true
      (Except.ok "unused") (Except.error "quota exceeded") "quota exceeded" rfl,
    generateResponse_propagates_provider_errors.2.2.1 String AIProvider.openai
      true true (Except.ok "hello") (Except.ok "unused") "hello" rfl,
    generateResponse_propagates_provider_errors.2.2.2 AIProvider.gemini false
      (Except.ok none) "thanks, great!" (by simp)⟩

/-- Helper: decoding inverts encoding on each 6-bit group. -/
theorem decodeB64Char_encodeB64Char :
    ∀ n, n < 64 → decodeB64Char (encodeB64Char n) = some n := by decide

/-- Helper: the alphabet never produces the padding character. -/
theorem encodeB64Char_ne_pad : ∀ n, n < 64 → encodeB64Char n ≠ '=' := by decide

/-- Helper: base64 decoding inverts base64 encoding on byte lists. -/
theorem decodeB64Groups_encodeB64Groups (bs : Bytes) (hb : ∀ x ∈ bs, x < 256) :
    decodeB64Groups (encodeB64Groups bs) = some bs := by
  induction bs using encodeB64Groups.induct with
  | case1 => rfl
  | case2 a =>
    have ha : a < 256 := hb a (by simp)
    rw [encodeB64Groups, decodeB64Groups, if_pos (by simp),
      decodeB64Char_encodeB64Char _ (by omega),
      decodeB64Char_encodeB64Char _ (by omega)]
    simp only [Option.some.injEq, List.cons.injEq, and_true]
    omega
  | case3 a b =>
    have ha : a < 256 := hb a (by simp)
    have hbb : b < 256 := hb b (by simp)
    rw [encodeB64Groups, decodeB64Groups,
      if_neg (fun h => encodeB64Char_ne_pad _ (by omega) h.1),
      if_pos (by simp),
      decodeB64Char_encodeB64Char _ (by omega),
      decodeB64Char_encodeB64Char _ (by omega),
      decodeB64Char_encodeB64Char _ (by omega)]
    simp only [Option.some.injEq, List.cons.injEq, and_true]
    omega
  | case4 a b c rest ih =>
    have ha : a < 256 := hb a (by simp)
    have hbb : b < 256 := hb b (by simp)
    have hc : c < 256 := hb c (by simp)
    have hrest : ∀ x ∈ rest, x < 256 := fun x hx => hb x (by simp [hx])
    rw [encodeB64Groups, decodeB64Groups,
      if_neg (fun h => encodeB64Char_ne_pad _ (by omega) h.1),
      if_neg (fun h => encodeB64Char_ne_pad _ (by omega) h.1),
      decodeB64Char_encodeB64Char _ (by omega),
      decodeB64Char_encodeB64Char _ (by omega),
      decodeB64Char_encodeB64Char _ (by omega),
      decodeB64Char_encodeB64Char _ (by omega),
      ih hrest]
    simp only [Option.some.injEq, List.cons.injEq]
    refine ⟨by omega, by omega, by omega, trivial⟩

/-- C10: `decrypt` inverts `encrypt` for every plaintext and secret key. The
random salt (64 bytes) and IV (16 bytes), the AES-256-GCM cipher pair, the
PBKDF2 key derivation and the UTF-8 codec are the external crypto runtime,
constrained only by their documented contracts: the byte buffers hold bytes,
the auth tag is 16 bytes, the decipher inverts the cipher under the same
key/IV/tag, and UTF-8 decoding inverts encoding. Under those contracts the
packing of `salt ++ iv ++ tag ++ ciphertext` into one base64 payload and
the fixed-position slicing in `decrypt` recover the plaintext exactly. -/
theorem encrypt_decrypt_round_trip
    (encryptPrim : Bytes → Bytes → Bytes → Bytes × Bytes)
    (decryptPrim : Bytes → Bytes → Bytes → Bytes → Option Bytes)
    (pbkdf2 : String → Bytes → Bytes)
    (utf8Encode : String → Bytes) (utf8Decode : Bytes → String)
    (text secretKey : String) (iv salt : Bytes)
    (hsalt : salt.length = 64) (hiv : iv.length = 16)
    (htag : (encryptPrim (pbkdf2 secretKey salt) iv (utf8Encode text)).2.length = 16)
    (hbytes : ∀ x ∈ salt ++ iv ++
        (encryptPrim (pbkdf2 secretKey salt) iv (utf8Encode text)).2 ++
        (encryptPrim (pbkdf2 secretKey salt) iv (utf8Encode text)).1, x < 256)
    (hprim : decryptPrim (pbkdf2 secretKey salt) iv
        (encryptPrim (pbkdf2 secretKey salt) iv (utf8Encode text)).2
        (encryptPrim (pbkdf2 secretKey salt) iv (utf8Encode text)).1 =
      some (utf8Encode text))
    (hutf : utf8Decode (utf8Encode text) = text) :
    decrypt decryptPrim pbkdf2 utf8Decode
      (encrypt encryptPrim pbkdf2 utf8Encode text secretKey iv salt) secretKey =
      some text := by
  have hround : fromBase64 (toBase64 (salt ++ iv ++
      (encryptPrim (pbkdf2 secretKey salt) iv (utf8Encode text)).2 ++
      (encryptPrim (pbkdf2 secretKey salt) iv (utf8Encode text)).1)) =
      some (salt ++ iv ++
        (encryptPrim (pbkdf2 secretKey salt) iv (utf8Encode text)).2 ++
        (encryptPrim (pbkdf2 secretKey salt) iv (utf8Encode text)).1) :=
    decodeB64Groups_encodeB64Groups _ hbytes
  set tag := (encryptPrim (pbkdf2 secretKey salt) iv (utf8Encode text)).2 with htagdef
  set ct := (encryptPrim (pbkdf2 secretKey salt) iv (utf8Encode text)).1 with hctdef
  rw [encrypt, decrypt]
  rw [show (encryptPrim (pbkdf2 secretKey salt) iv (utf8Encode text)).2 = tag from rfl,
    show (encryptPrim (pbkdf2 secretKey salt) iv (utf8Encode text)).1 = ct from rfl]
  rw [hround]
  have htake64 : (salt ++ (iv ++ (tag ++ ct))).take 64 = salt :=
    List.take_left' hsalt
  have hdrop64 : (salt ++ (iv ++ (tag ++ ct))).drop 64 = iv ++ (tag ++ ct) :=
    List.drop_left' hsalt
  have hdrop80 : (salt ++ (iv ++ (tag ++ ct))).drop 80 = tag ++ ct := by
    rw [show (80 : Nat) = 64 + 16 from rfl, ← List.drop_drop, hdrop64]
    exact List.drop_left' hiv
  have hdrop96 : (salt ++ (iv ++ (tag ++ ct))).drop 96 = ct := by
    rw [show (96 : Nat) = 80 + 16 from rfl, ← List.drop_drop, hdrop80]
    exact List.drop_left' htag
  simp only [List.append_assoc] at htake64 hdrop64 hdrop80 hdrop96 ⊢
  rw [htake64, hdrop64, hdrop80, hdrop96]
  rw [List.take_left' hiv, List.take_left' htag]
  rw [hprim]
  simp [hutf]

/-- Witness for C10: with the stand-in crypto runtime (identity cipher with
a zero tag, constant key derivation, codepoint UTF-8 codec), encrypting
`"hi"` under key `"k"` with a zero salt and IV and then decrypting returns
`"hi"`. -/
theorem encrypt_decrypt_round_trip_witness :
    decrypt witnessDecryptPrim witnessPbkdf2 witnessUtf8Decode
      (encrypt witnessEncryptPrim witnessPbkdf2 witnessUtf8Encode
        "hi" "k" (List.replicate 16 0) (List.replicate 64 0)) "k" = some "hi" :=
  encrypt_decrypt_round_trip witnessEncryptPrim witnessDecryptPrim witnessPbkdf2
    witnessUtf8Encode witnessUtf8Decode "hi" "k"
    (List.replicate 16 0) (List.replicate 64 0)
    (by decide) (by decide) (by decide) (by decide) rfl (by decide)
